import Mathlib

/-!
Verification of the job dispatch and progress-broadcast subsystem of the
cloud 3D tracker repository.

The embedding below translates the relevant Python source into Lean:

* `src/backend/blender_worker/enhanced_blender.py` — the stage worker:
  `process_blender_job` and the body of `main_worker_loop` (queue pop,
  retry / dead-letter logic).  Redis lists are modelled as Lean lists with
  `lpush` adding at the left end and `brpop` removing from the right end;
  a `brpop` timeout is modelled by `none`.  The external Blender work
  (COLMAP import, file save) is abstracted by a `BlenderOutcome` oracle:
  every failure path of `process_blender_job` funnels into the single
  `except` branch of the source, which is what the oracle's `failure`
  constructor triggers.
* `src/backend/api/app_prod.py` — the ingestion gateway's `upload_video`
  descriptor construction and `lpush` enqueue.
* `src/backend/websocket/server.py` — the broadcast server:
  `send_to_client`, `broadcast`, `register_client`, `unregister_client`,
  `subscribe_to_job_progress` and the message dispatch of `handle_client`.
  A client websocket's transport behaviour at a send is modelled by a
  `Transport` oracle (`ok` = send succeeds, `closed` = raises
  ConnectionClosed, `err` = raises any other exception).

The Redis key-value store (`redis_client.set` / `get` on `job:<id>` keys)
is modelled as an association list where `set` conses (last-writer-wins on
lookup); worker steps additionally return the ordered trace of store
writes so that status-transition claims can be stated over the trace.
-/

/-! Section: Redis list primitives (LPUSH / BRPOP) -/

/-- Redis `LPUSH`: add an element at the left end of the list. -/
def lpush {α : Type} (x : α) (l : List α) : List α := x :: l

/-- Redis `BRPOP`: atomically remove and return the element at the right
end of the list; `none` models the empty-queue timeout. -/
def brpop {α : Type} : List α → Option (α × List α)
  | [] => none
  | x :: xs =>
    match brpop xs with
    | none => some (x, [])
    | some (y, ys) => some (y, x :: ys)

theorem brpop_eq_some {α : Type} :
    ∀ {q q' : List α} {x : α}, brpop q = some (x, q') → q = q' ++ [x] := by
  intro q
  induction q with
  | nil => intro q' x h; simp [brpop] at h
  | cons a as ih =>
    intro q' x h
    simp only [brpop] at h
    cases has : brpop as with
    | none =>
      rw [has] at h
      cases as with
      | nil =>
        simp at h
        simp [h.1, h.2]
      | cons b bs => simp [brpop] at has; cases hbs : brpop bs <;> simp [hbs] at has
    | some p =>
      rw [has] at h
      obtain ⟨y, ys⟩ := p
      simp at h
      obtain ⟨hx, hq⟩ := h
      subst hx hq
      simpa using ih has

theorem brpop_length {α : Type} {q q' : List α} {x : α}
    (h : brpop q = some (x, q')) : q'.length < q.length := by
  rw [brpop_eq_some h]
  simp

/-- Drain a Redis list by repeated `brpop`: the order in which a consumer
polling `brpop` observes the entries. -/
def drain {α : Type} (q : List α) : List α :=
  match h : brpop q with
  | none => []
  | some (x, q') => x :: drain q'
termination_by q.length
decreasing_by exact brpop_length h

theorem drain_eq_reverse {α : Type} (q : List α) : drain q = q.reverse := by
  have H : ∀ n (q : List α), q.length = n → drain q = q.reverse := by
    intro n
    induction n using Nat.strong_induction_on with
    | _ n ih =>
      intro q hq
      unfold drain
      cases h : brpop q with
      | none =>
        cases q with
        | nil => simp
        | cons a as =>
          exfalso
          simp only [brpop] at h
          cases has : brpop as <;> simp [has] at h
      | some p =>
        obtain ⟨x, q'⟩ := p
        have hdec := brpop_eq_some h
        subst hdec
        have hlen : q'.length < n := by
          subst hq; simp
        simp [ih q'.length hlen q' rfl]
  exact H q.length q rfl

theorem drain_lpush {α : Type} (x : α) (q : List α) :
    drain (lpush x q) = drain q ++ [x] := by
  simp [drain_eq_reverse, lpush]

theorem drain_enqueue_seq {α : Type} (xs : List α) (q : List α) :
    drain (xs.foldl (fun acc x => lpush x acc) q) = drain q ++ xs := by
  induction xs generalizing q with
  | nil => simp
  | cons a as ih => simp [ih, drain_lpush]

/-! Section: Job data model -/

/-- One job record / queue descriptor: the JSON dict created by
`upload_video` in `app_prod.py` and mutated by the worker.  Optional
fields model dict keys that may be absent. -/
structure JobData where
  job_id : String
  filename : String
  filepath : String
  scene_path : String
  output_path : String
  status : String
  created_at : Nat
  retries : Nat
  max_retries : Nat
  blender_retries : Option Nat
  blender_started_at : Option Nat
  completed_at : Option Nat
  failed_at : Option Nat
  error : Option String
  output_file : Option String
  file_size : Option Nat
deriving DecidableEq, Repr

/-- The descriptor written by `upload_video` (`app_prod.py`): status
`queued`, `retries` 0, `max_retries` 3, no worker fields yet. -/
def upload_job_data (job_id filename filepath : String) (now : Nat) : JobData :=
  { job_id := job_id
    filename := filename
    filepath := filepath
    scene_path := ""
    output_path := ""
    status := "queued"
    created_at := now
    retries := 0
    max_retries := 3
    blender_retries := none
    blender_started_at := none
    completed_at := none
    failed_at := none
    error := none
    output_file := none
    file_size := none }

/-- Redis key `job:<job_id>` under which the record is stored. -/
def jobKey (job_id : String) : String := "job:" ++ job_id

theorem jobKey_inj {a b : String} (h : jobKey a = jobKey b) : a = b := by
  have hd : ("job:" ++ a).data = ("job:" ++ b).data := congrArg String.data h
  simp only [String.data_append] at hd
  have hab : a.data = b.data := List.append_cancel_left hd
  exact congrArg String.mk hab

/-- The Job Store: `redis_client.set` conses, `redis_client.get` finds the
most recent write (last-writer-wins). -/
abbrev Store := List (String × JobData)

def redisSet (s : Store) (k : String) (v : JobData) : Store := (k, v) :: s

def redisGet (s : Store) (k : String) : Option JobData :=
  (s.find? (fun p => p.1 == k)).map (fun p => p.2)

def applyWrites (s : Store) (ws : List (String × JobData)) : Store :=
  ws.foldl (fun acc w => redisSet acc w.1 w.2) s

theorem redisGet_applyWrites_of_ne (s : Store) (ws : List (String × JobData))
    (k : String) (h : ∀ w ∈ ws, w.1 ≠ k) :
    redisGet (applyWrites s ws) k = redisGet s k := by
  induction ws generalizing s with
  | nil => rfl
  | cons w ws ih =>
    have hw : w.1 ≠ k := h w (by simp)
    have hrest : ∀ w' ∈ ws, w'.1 ≠ k := fun w' hw' => h w' (by simp [hw'])
    rw [applyWrites, List.foldl_cons, ← applyWrites, ih _ hrest]
    simp [redisGet, redisSet, List.find?_cons, hw]

/-! Section: Stage worker (`enhanced_blender.py`) -/

/-- Outcome oracle for the external Blender work inside
`process_blender_job`'s `try` block: `success` carries the size reported
by `os.path.getsize`, `failure` the exception message recorded in the
`except` branch. -/
inductive BlenderOutcome where
  | success (file_size : Nat)
  | failure (msg : String)
deriving DecidableEq, Repr

/-- `process_blender_job(job_data)`: writes `processing_blender` to the
store on entry, then, depending on the outcome, writes `completed` (with
`output_file` / `file_size`) or `failed_blender` (with `error` /
`failed_at`).  Returns the mutated descriptor, the ordered list of store
writes performed, and the boolean the Python function returns. -/
def process_blender_job (jd : JobData) (out : BlenderOutcome) (now : Nat) :
    JobData × List (String × JobData) × Bool :=
  let jd1 := { jd with status := "processing_blender", blender_started_at := some now }
  match out with
  | .success size =>
    let jd2 := { jd1 with
      status := "completed"
      completed_at := some now
      output_file := some jd1.output_path
      file_size := some size }
    (jd2, [(jobKey jd.job_id, jd1), (jobKey jd.job_id, jd2)], true)
  | .failure msg =>
    let jd2 := { jd1 with
      status := "failed_blender"
      error := some msg
      failed_at := some now }
    (jd2, [(jobKey jd.job_id, jd1), (jobKey jd.job_id, jd2)], false)

/-- Fixed backoff delay (`retry_delay = 30` in `main_worker_loop`). -/
def retry_delay : Nat := 30

/-- State visible to the worker: the `blender_jobs` list, the
`failed_blender_jobs` dead-letter list, the Job Store and a clock
(abstracting `time.time()`). -/
structure WorkerState where
  queue : List JobData
  dead : List JobData
  store : Store
  clock : Nat
deriving DecidableEq, Repr

/-- One iteration of `main_worker_loop`: `brpop` a descriptor (a timeout
leaves the state unchanged), run `process_blender_job`, and on failure
either re-`lpush` the descriptor with `blender_retries` incremented and
status `retry_blender` (when `retries < max_retries`, after sleeping
`retry_delay`), or `lpush` it onto the dead-letter list.  Also returns
the store writes of the iteration. -/
def main_worker_loop_step (max_retries : Nat) (out : BlenderOutcome)
    (st : WorkerState) : WorkerState × List (String × JobData) :=
  match brpop st.queue with
  | none => (st, [])
  | some (jd, rest) =>
    let retries := jd.blender_retries.getD 0
    let r := process_blender_job jd out st.clock
    let store' := applyWrites st.store r.2.1
    if r.2.2 then
      ({ queue := rest, dead := st.dead, store := store', clock := st.clock + 1 }, r.2.1)
    else if retries < max_retries then
      let jd2 := { r.1 with
        blender_retries := some (retries + 1)
        status := "retry_blender" }
      ({ queue := lpush jd2 rest, dead := st.dead, store := store',
         clock := st.clock + 1 + retry_delay }, r.2.1)
    else
      ({ queue := rest, dead := lpush r.1 st.dead, store := store',
         clock := st.clock + 1 }, r.2.1)

/-- Run the worker loop for a list of attempt outcomes, concatenating the
store-write traces. -/
def main_worker_loop_run (max_retries : Nat) (outs : List BlenderOutcome)
    (st : WorkerState) : WorkerState × List (String × JobData) :=
  match outs with
  | [] => (st, [])
  | o :: os =>
    let r := main_worker_loop_step max_retries o st
    let r2 := main_worker_loop_run max_retries os r.1
    (r2.1, r.2 ++ r2.2)

/-- `process_blender_job` never changes the `job_id` of the descriptor. -/
theorem process_blender_job_job_id (jd : JobData) (out : BlenderOutcome) (now : Nat) :
    (process_blender_job jd out now).1.job_id = jd.job_id := by
  cases out <;> rfl

/-- Every store write of `process_blender_job` targets the popped job's key. -/
theorem process_blender_job_write_keys (jd : JobData) (out : BlenderOutcome) (now : Nat) :
    ∀ w ∈ (process_blender_job jd out now).2.1, w.1 = jobKey jd.job_id := by
  cases out <;> intro w hw <;> simp [process_blender_job] at hw <;>
    rcases hw with h | h <;> simp [h]

/-- A job id absent from the queue can never re-enter it: a worker step
only ever re-enqueues the descriptor it popped. -/
theorem main_worker_loop_step_queue_ids (m : Nat) (out : BlenderOutcome)
    (st : WorkerState) (j : String)
    (h : j ∉ st.queue.map JobData.job_id) :
    j ∉ ((main_worker_loop_step m out st).1.queue.map JobData.job_id) := by
  unfold main_worker_loop_step
  cases hpop : brpop st.queue with
  | none => exact h
  | some p =>
    obtain ⟨jd, rest⟩ := p
    have hq := brpop_eq_some hpop
    rw [hq] at h
    simp only [List.map_append, List.mem_append] at h
    push_neg at h
    obtain ⟨hrest, hjd⟩ := h
    have hjd' : j ≠ jd.job_id := by simpa using hjd
    by_cases hs : (process_blender_job jd out st.clock).2.2
    · simpa [hs] using hrest
    · by_cases hr : jd.blender_retries.getD 0 < m
      · simp only [hs, hr, if_true, if_false, Bool.false_eq_true]
        simp [lpush, process_blender_job_job_id, hjd', hrest]
      · simpa [hs, hr] using hrest

/-- A job id absent from the queue stays absent for the rest of the run. -/
theorem main_worker_loop_run_queue_ids (m : Nat) (outs : List BlenderOutcome)
    (st : WorkerState) (j : String)
    (h : j ∉ st.queue.map JobData.job_id) :
    j ∉ ((main_worker_loop_run m outs st).1.queue.map JobData.job_id) := by
  induction outs generalizing st with
  | nil => exact h
  | cons o os ih =>
    exact ih _ (main_worker_loop_step_queue_ids m o st j h)

/-- A worker step only writes store keys of jobs present in its queue:
if job `j` is not queued, none of the step's writes target `job:j`. -/
theorem main_worker_loop_step_write_keys (m : Nat) (out : BlenderOutcome)
    (st : WorkerState) (j : String)
    (h : j ∉ st.queue.map JobData.job_id) :
    ∀ w ∈ (main_worker_loop_step m out st).2, w.1 ≠ jobKey j := by
  unfold main_worker_loop_step
  cases hpop : brpop st.queue with
  | none => intro w hw; simp at hw
  | some p =>
    obtain ⟨jd, rest⟩ := p
    have hq := brpop_eq_some hpop
    rw [hq] at h
    simp only [List.map_append, List.mem_append] at h
    push_neg at h
    have hjd : jd.job_id ≠ j := by
      intro he
      exact (by simpa using h.2 : j ≠ jd.job_id) he.symm
    have hkeys := process_blender_job_write_keys jd out st.clock
    have hx : ∀ w ∈ (process_blender_job jd out st.clock).2.1, w.1 ≠ jobKey j := by
      intro w hw he
      exact hjd (jobKey_inj ((hkeys w hw).symm.trans he))
    by_cases hs : (process_blender_job jd out st.clock).2.2
    · simpa [hs] using hx
    · by_cases hr : jd.blender_retries.getD 0 < m
      · simpa [hs, hr] using hx
      · simpa [hs, hr] using hx

/-- If job `j` is not in the queue, the rest of the run never writes to
`job:j` and its Job Store record never changes again. -/
theorem main_worker_loop_run_no_writes (m : Nat) (outs : List BlenderOutcome)
    (st : WorkerState) (j : String)
    (h : j ∉ st.queue.map JobData.job_id) :
    (∀ w ∈ (main_worker_loop_run m outs st).2, w.1 ≠ jobKey j) ∧
    redisGet (main_worker_loop_run m outs st).1.store (jobKey j) =
      redisGet st.store (jobKey j) := by
  induction outs generalizing st with
  | nil => exact ⟨by intro w hw; simp [main_worker_loop_run] at hw, rfl⟩
  | cons o os ih =>
    have hstep := main_worker_loop_step_write_keys m o st j h
    have hids := main_worker_loop_step_queue_ids m o st j h
    have hrest := ih ((main_worker_loop_step m o st).1) hids
    constructor
    · intro w hw
      simp only [main_worker_loop_run, List.mem_append] at hw
      cases hw with
      | inl hw => exact hstep w hw
      | inr hw => exact hrest.1 w hw
    · show redisGet (main_worker_loop_run m os (main_worker_loop_step m o st).1).1.store
          (jobKey j) = redisGet st.store (jobKey j)
      have hstore :
          redisGet (main_worker_loop_step m o st).1.store (jobKey j) =
            redisGet st.store (jobKey j) := by
        unfold main_worker_loop_step
        cases hpop : brpop st.queue with
        | none => rfl
        | some p =>
          obtain ⟨jd, rest⟩ := p
          have hstep' := main_worker_loop_step_write_keys m o st j h
          unfold main_worker_loop_step at hstep'
          rw [hpop] at hstep'
          by_cases hs : (process_blender_job jd o st.clock).2.2
          · simp only [hs, if_true]
            exact redisGet_applyWrites_of_ne _ _ _ (by simpa [hs] using hstep')
          · by_cases hr : jd.blender_retries.getD 0 < m
            · simp only [hs, hr, Bool.false_eq_true, if_false, if_true]
              exact redisGet_applyWrites_of_ne _ _ _ (by simpa [hs, hr] using hstep')
            · simp only [hs, hr, Bool.false_eq_true, if_false]
              exact redisGet_applyWrites_of_ne _ _ _ (by simpa [hs, hr] using hstep')
      exact hrest.2.trans hstore

/-! Section: Broadcast server (`websocket/server.py`) -/

/-- Transport behaviour of a client's websocket at a send:
`ok` — `send` succeeds; `closed` — `send` raises
`websockets.exceptions.ConnectionClosed`; `err` — `send` raises any
other exception. -/
inductive Transport where
  | ok
  | closed
  | err
deriving DecidableEq, Repr

/-- A progress event (`report_progress` payload in
`enhanced_blender.py`). -/
structure ProgressEvent where
  job_id : String
  stage : String
  progress : Nat
  message : String
  timestamp : Nat
deriving DecidableEq, Repr

/-- Outbound messages of the broadcast server (§6 client protocol). -/
inductive OutMsg where
  | connection (client_id : String)
  | job_status (job_id : String) (data : JobData)
  | progress_update (job_id : String) (data : ProgressEvent)
deriving DecidableEq, Repr

/-- The live connection registry `self.clients`: a Python dict from
`client_id` to the websocket, modelled with the websocket abstracted to
its transport behaviour.  Insertion order is preserved as in a Python
dict. -/
abbrev Registry := List (String × Transport)

/-- Python dict assignment `self.clients[client_id] = websocket`:
replace in place when the key exists, append otherwise. -/
def dictSet : Registry → String → Transport → Registry
  | [], cid, t => [(cid, t)]
  | (k, v) :: rest, cid, t =>
    if k = cid then (cid, t) :: rest else (k, v) :: dictSet rest cid t

/-- `unregister_client`: idempotent `del self.clients[client_id]` guarded
by a membership test. -/
def unregister_client (reg : Registry) (cid : String) : Registry :=
  reg.filter (fun p => p.1 ≠ cid)

/-- `send_to_client`: if the client is registered, attempt the send.
Returns the new registry, the boolean result of the Python coroutine, and
the messages actually delivered.  On `ConnectionClosed` the client is
unregistered and `False` returned; on any other exception only `False`
is returned; an unknown client yields `False`. -/
def send_to_client (reg : Registry) (cid : String) (msg : OutMsg) :
    Registry × Bool × List (String × OutMsg) :=
  match reg.find? (fun p => p.1 == cid) with
  | none => (reg, false, [])
  | some p =>
    match p.2 with
    | Transport.ok => (reg, true, [(cid, msg)])
    | Transport.closed => (unregister_client reg cid, false, [])
    | Transport.err => (reg, false, [])

/-- The `for client_id, websocket in self.clients.items()` loop of
`broadcast`: returns the deliveries made and the `disconnected_clients`
list accumulated during the pass (both exception branches append the
client). -/
def broadcastLoop (clients : Registry) (msg : OutMsg) :
    List (String × OutMsg) × List String :=
  match clients with
  | [] => ([], [])
  | (cid, t) :: rest =>
    let r := broadcastLoop rest msg
    match t with
    | Transport.ok => ((cid, msg) :: r.1, r.2)
    | _ => (r.1, cid :: r.2)

/-- `broadcast`: early-return on an empty registry, otherwise send to
every registered client and then unregister every client collected in
`disconnected_clients`.  Returns the new registry and the deliveries. -/
def broadcast (reg : Registry) (msg : OutMsg) :
    Registry × List (String × OutMsg) :=
  if reg.isEmpty then (reg, [])
  else
    let r := broadcastLoop reg msg
    (r.2.foldl unregister_client reg, r.1)

/-- `register_client`: dict assignment into the registry followed by the
initial `connection` status message sent through `send_to_client`.  The
transport of the new connection is supplied by the per-connection oracle
value `t`. -/
def register_client (reg : Registry) (cid : String) (t : Transport) :
    Registry × List (String × OutMsg) :=
  let reg1 := dictSet reg cid t
  let r := send_to_client reg1 cid (OutMsg.connection cid)
  (r.1, r.2.2)

/-- `subscribe_to_job_progress`: read the Job Store record and, when it
exists, send one `job_status` snapshot to the client. -/
def subscribe_to_job_progress (store : Store) (reg : Registry)
    (cid : String) (jid : String) : Registry × List (String × OutMsg) :=
  match redisGet store (jobKey jid) with
  | none => (reg, [])
  | some record =>
    let r := send_to_client reg cid (OutMsg.job_status jid record)
    (r.1, r.2.2)

/-- Inbound client messages (`handle_client` dispatch).  `identify`
carries the optional `client_id` field, `subscribe_job` the optional
`job_id` field; `other` stands for any message of a different type,
which `handle_client` ignores. -/
inductive ClientMsg where
  | identify (client_id : Option String)
  | subscribe_job (job_id : Option String)
  | other
deriving DecidableEq, Repr

/-- Events consumed by the broadcast server process: a message arriving
on one client connection (connections are numbered by `Nat`), or a
progress event arriving via the Redis listener / the direct `/progress`
ingress (both converge on the same `broadcast`). -/
inductive ServerEvent where
  | clientMsg (conn : Nat) (msg : ClientMsg)
  | progressEvent (job_id : String) (ev : ProgressEvent)
deriving DecidableEq, Repr

/-- Broadcast-server state: per-connection local `client_id` variables of
`handle_client` (absent until the connection identifies) and the shared
connection registry. -/
structure ServerState where
  connId : List (Nat × String)
  clients : Registry
deriving DecidableEq, Repr

/-- The local variable `client_id` of `handle_client` for connection
`conn` (`none` before any `identify`). -/
def connIdOf (st : ServerState) (conn : Nat) : Option String :=
  (st.connId.find? (fun p => p.1 == conn)).map (fun p => p.2)

def connIdSet : List (Nat × String) → Nat → String → List (Nat × String)
  | [], conn, cid => [(conn, cid)]
  | (k, v) :: rest, conn, cid =>
    if k = conn then (conn, cid) :: rest else (k, v) :: connIdSet rest conn cid

/-- One event of the broadcast server.  `tr conn` is the transport
behaviour of connection `conn`'s websocket.  Python truthiness: a
`subscribe_job` proceeds only when both `job_id` and the local
`client_id` are present and non-empty (`if job_id and client_id`);
`identify` defaults a missing `client_id` to the generated
`client_<id(websocket)>`. -/
def serverStep (tr : Nat → Transport) (store : Store) (st : ServerState) :
    ServerEvent → ServerState × List (String × OutMsg)
  | ServerEvent.clientMsg conn cmsg =>
    match cmsg with
    | ClientMsg.identify cidOpt =>
      let cid := cidOpt.getD ("client_" ++ toString conn)
      let r := register_client st.clients cid (tr conn)
      ({ connId := connIdSet st.connId conn cid, clients := r.1 }, r.2)
    | ClientMsg.subscribe_job jidOpt =>
      match jidOpt, connIdOf st conn with
      | some jid, some cid =>
        if jid = "" ∨ cid = "" then (st, [])
        else
          let r := subscribe_to_job_progress store st.clients cid jid
          ({ connId := st.connId, clients := r.1 }, r.2)
      | _, _ => (st, [])
    | ClientMsg.other => (st, [])
  | ServerEvent.progressEvent jid ev =>
    let r := broadcast st.clients (OutMsg.progress_update jid ev)
    ({ connId := st.connId, clients := r.1 }, r.2)

/-- Run the broadcast server over a sequence of events, concatenating the
delivered messages in order. -/
def serverRun (tr : Nat → Transport) (store : Store) (st : ServerState) :
    List ServerEvent → ServerState × List (String × OutMsg)
  | [] => (st, [])
  | e :: es =>
    let r := serverStep tr store st e
    let r2 := serverRun tr store r.1 es
    (r2.1, r.2 ++ r2.2)

/-! Section: Helper lemmas about `broadcast` -/

theorem broadcastLoop_spec (reg : Registry) (msg : OutMsg) :
    (broadcastLoop reg msg).1 =
        (reg.filter (fun p => p.2 = Transport.ok)).map (fun p => (p.1, msg)) ∧
    (broadcastLoop reg msg).2 =
        (reg.filter (fun p => p.2 ≠ Transport.ok)).map Prod.fst := by
  induction reg with
  | nil => exact ⟨rfl, rfl⟩
  | cons p rest ih =>
    obtain ⟨cid, t⟩ := p
    cases t <;> simp [broadcastLoop, ih.1, ih.2]

theorem foldl_unregister_client (dis : List String) (reg : Registry) :
    dis.foldl unregister_client reg = reg.filter (fun p => p.1 ∉ dis) := by
  induction dis generalizing reg with
  | nil => simp
  | cons d ds ih =>
    rw [List.foldl_cons, ih, unregister_client, List.filter_filter]
    apply List.filter_congr
    intro p _
    by_cases h1 : p.1 = d <;> by_cases h2 : p.1 ∈ ds <;> simp [h1, h2]

theorem broadcast_registry (reg : Registry) (msg : OutMsg)
    (hnodup : (reg.map Prod.fst).Nodup) :
    (broadcast reg msg).1 = reg.filter (fun p => p.2 = Transport.ok) := by
  unfold broadcast
  by_cases he : reg.isEmpty = true
  · cases reg with
    | nil => simp
    | cons a l => simp [List.isEmpty] at he
  · simp only [he, if_false]
    rw [(broadcastLoop_spec reg msg).2, foldl_unregister_client]
    apply List.filter_congr
    intro p hp
    have hiff :
        (p.1 ∉ (reg.filter (fun q => q.2 ≠ Transport.ok)).map Prod.fst) ↔
          (p.2 = Transport.ok) := by
      constructor
      · intro hnot
        by_contra hne
        exact hnot (List.mem_map.mpr
          ⟨p, List.mem_filter.mpr ⟨hp, by simpa using hne⟩, rfl⟩)
      · intro hok hmem
        obtain ⟨q, hq, hqp⟩ := List.mem_map.mp hmem
        have hq' := List.mem_filter.mp hq
        have hqeq : q = p := List.inj_on_of_nodup_map hnodup hq'.1 hp hqp
        subst hqeq
        have : q.2 ≠ Transport.ok := by simpa using hq'.2
        exact this hok
    exact decide_eq_decide.mpr hiff

/-! Section: Branch characterizations of the worker step -/

theorem process_blender_job_ok (jd : JobData) (size now : Nat) :
    (process_blender_job jd (BlenderOutcome.success size) now).2.2 = true := rfl

theorem process_blender_job_fail (jd : JobData) (msg : String) (now : Nat) :
    (process_blender_job jd (BlenderOutcome.failure msg) now).2.2 = false := rfl

theorem main_worker_loop_step_success (m : Nat) (size : Nat) (st : WorkerState)
    (jd : JobData) (rest : List JobData)
    (hpop : brpop st.queue = some (jd, rest)) :
    main_worker_loop_step m (BlenderOutcome.success size) st =
      ({ queue := rest, dead := st.dead,
         store := applyWrites st.store
           (process_blender_job jd (BlenderOutcome.success size) st.clock).2.1,
         clock := st.clock + 1 },
       (process_blender_job jd (BlenderOutcome.success size) st.clock).2.1) := by
  unfold main_worker_loop_step
  rw [hpop]
  simp [process_blender_job_ok]

theorem main_worker_loop_step_retry (m : Nat) (msg : String) (st : WorkerState)
    (jd : JobData) (rest : List JobData)
    (hpop : brpop st.queue = some (jd, rest))
    (hr : jd.blender_retries.getD 0 < m) :
    main_worker_loop_step m (BlenderOutcome.failure msg) st =
      ({ queue := lpush
           { (process_blender_job jd (BlenderOutcome.failure msg) st.clock).1 with
             blender_retries := some (jd.blender_retries.getD 0 + 1)
             status := "retry_blender" } rest,
         dead := st.dead,
         store := applyWrites st.store
           (process_blender_job jd (BlenderOutcome.failure msg) st.clock).2.1,
         clock := st.clock + 1 + retry_delay },
       (process_blender_job jd (BlenderOutcome.failure msg) st.clock).2.1) := by
  unfold main_worker_loop_step
  rw [hpop]
  simp [process_blender_job_fail, hr]

theorem main_worker_loop_step_deadletter (m : Nat) (msg : String) (st : WorkerState)
    (jd : JobData) (rest : List JobData)
    (hpop : brpop st.queue = some (jd, rest))
    (hr : ¬ jd.blender_retries.getD 0 < m) :
    main_worker_loop_step m (BlenderOutcome.failure msg) st =
      ({ queue := rest,
         dead := lpush (process_blender_job jd (BlenderOutcome.failure msg) st.clock).1 st.dead,
         store := applyWrites st.store
           (process_blender_job jd (BlenderOutcome.failure msg) st.clock).2.1,
         clock := st.clock + 1 },
       (process_blender_job jd (BlenderOutcome.failure msg) st.clock).2.1) := by
  unfold main_worker_loop_step
  rw [hpop]
  simp [process_blender_job_fail, hr]

/-! Section: Claims -/

/-- C8: within one stage queue, descriptors are dequeued in the order
they were enqueued (FIFO across `lpush` enqueue and `brpop` dequeue), and
a retried descriptor re-enters at the tail: for every queue state, a
retried job is dequeued after all descriptors already queued at the
moment of its re-enqueue (`main_worker_loop` re-enqueues by `lpush` onto
the same list it pops with `brpop`). -/
theorem C8_queue_fifo_retry_tail (xs q : List JobData) (x : JobData) (m : Nat)
    (msg : String) (st : WorkerState) (jd : JobData) (rest : List JobData)
    (hpop : brpop st.queue = some (jd, rest))
    (hfail : jd.blender_retries.getD 0 < m) :
    drain (xs.foldl (fun acc y => lpush y acc) q) = drain q ++ xs ∧
    drain (lpush x q) = drain q ++ [x] ∧
    ∃ jd2 : JobData, jd2.job_id = jd.job_id ∧
      drain ((main_worker_loop_step m (BlenderOutcome.failure msg) st).1.queue) =
        drain rest ++ [jd2] := by
  refine ⟨drain_enqueue_seq xs q, drain_lpush x q, ?_⟩
  rw [main_worker_loop_step_retry m msg st jd rest hpop hfail]
  exact ⟨_, by simp [process_blender_job_job_id], drain_lpush _ rest⟩

/-- C8 witness: a concrete queue with one fresh descriptor whose failed
attempt is re-enqueued at the tail. -/
theorem C8_witness :
    drain ([upload_job_data "B" "b.mp4" "/in/b.mp4" 0].foldl
        (fun acc y => lpush y acc) ([] : List JobData)) =
      drain [] ++ [upload_job_data "B" "b.mp4" "/in/b.mp4" 0] ∧
    drain (lpush (upload_job_data "B" "b.mp4" "/in/b.mp4" 0) ([] : List JobData)) =
      drain [] ++ [upload_job_data "B" "b.mp4" "/in/b.mp4" 0] ∧
    ∃ jd2 : JobData, jd2.job_id = (upload_job_data "A" "a.mp4" "/in/a.mp4" 0).job_id ∧
      drain ((main_worker_loop_step 2 (BlenderOutcome.failure "boom")
          { queue := [upload_job_data "A" "a.mp4" "/in/a.mp4" 0], dead := [],
            store := [(jobKey "A", upload_job_data "A" "a.mp4" "/in/a.mp4" 0)],
            clock := 0 }).1.queue) =
        drain [] ++ [jd2] :=
  C8_queue_fifo_retry_tail [upload_job_data "B" "b.mp4" "/in/b.mp4" 0] []
    (upload_job_data "B" "b.mp4" "/in/b.mp4" 0) 2 "boom" _
    (upload_job_data "A" "a.mp4" "/in/a.mp4" 0) [] rfl (by decide)

/-- C9: the queue's pop is atomic: two dequeue operations, in whatever
order the scheduler interleaves them (each `brpop` is one atomic step on
the shared list), never observe the same descriptor — the first pop
removes the descriptor from the list, so at most one worker holds it. -/
theorem C9_atomic_pop_exclusive (q q1 q2 : List JobData) (x y : JobData)
    (hnodup : q.Nodup)
    (h1 : brpop q = some (x, q1)) (h2 : brpop q1 = some (y, q2)) :
    x ∉ q1 ∧ x ≠ y := by
  have e1 := brpop_eq_some h1
  have e2 := brpop_eq_some h2
  subst e1
  rw [List.nodup_append] at hnodup
  have hx : x ∉ q1 := by
    intro hmem
    exact hnodup.2.2 hmem (List.mem_singleton_self x)
  refine ⟨hx, ?_⟩
  intro he
  subst he
  have : x ∈ q1 := by rw [e2]; simp
  exact hx this

/-- C9 witness: two concurrent pops on a two-element queue observe the
two distinct descriptors. -/
theorem C9_witness :
    upload_job_data "A" "a.mp4" "/in/a.mp4" 0 ∉ [upload_job_data "B" "b.mp4" "/in/b.mp4" 0] ∧
    upload_job_data "A" "a.mp4" "/in/a.mp4" 0 ≠ upload_job_data "B" "b.mp4" "/in/b.mp4" 0 :=
  C9_atomic_pop_exclusive
    [upload_job_data "B" "b.mp4" "/in/b.mp4" 0, upload_job_data "A" "a.mp4" "/in/a.mp4" 0]
    [upload_job_data "B" "b.mp4" "/in/b.mp4" 0] []
    (upload_job_data "A" "a.mp4" "/in/a.mp4" 0) (upload_job_data "B" "b.mp4" "/in/b.mp4" 0)
    (by decide) rfl rfl

/-- C10: a `subscribe_job` received on a connection before any
`identify` has no effect: `handle_client`'s local `client_id` is still
`None`, so the `if job_id and client_id` guard fails — no message is
sent and the registry (indeed the whole server state) is unchanged. -/
theorem C10_subscribe_before_identify (tr : Nat → Transport) (store : Store)
    (st : ServerState) (conn : Nat) (jidOpt : Option String)
    (hconn : connIdOf st conn = none) :
    serverStep tr store st
        (ServerEvent.clientMsg conn (ClientMsg.subscribe_job jidOpt)) = (st, []) := by
  cases jidOpt with
  | none => rfl
  | some jid => simp [serverStep, hconn]

/-- C10 witness: a concrete unidentified connection subscribing to a job. -/
theorem C10_witness :
    serverStep (fun _ => Transport.ok) [(jobKey "A", upload_job_data "A" "a.mp4" "/in/a.mp4" 0)]
        { connId := [], clients := [("c9", Transport.ok)] }
        (ServerEvent.clientMsg 7 (ClientMsg.subscribe_job (some "A"))) =
      ({ connId := [], clients := [("c9", Transport.ok)] }, []) :=
  C10_subscribe_before_identify (fun _ => Transport.ok)
    [(jobKey "A", upload_job_data "A" "a.mp4" "/in/a.mp4" 0)]
    { connId := [], clients := [("c9", Transport.ok)] } 7 (some "A") rfl

/-- C5 counterexample: the claim says ANY transport failure unregisters
the client, but `send_to_client` unregisters only on
`websockets.exceptions.ConnectionClosed`; a send that fails with any
other exception (`Transport.err`) reports failure yet leaves the client
registered. -/
theorem C5_counterexample :
    (send_to_client [("c1", Transport.err)] "c1" (OutMsg.connection "c1")).2.1 = false ∧
    (send_to_client [("c1", Transport.err)] "c1" (OutMsg.connection "c1")).1 =
      [("c1", Transport.err)] :=
  ⟨rfl, rfl⟩

/-- C5 (amended): if `send(client_id, message)` fails, the failure is
reported to the caller (returns `False`, nothing delivered, no retry);
the client is removed from the registry when the failure is a closed
connection, and remains registered on any other send failure. -/
theorem C5_send_failure (reg : Registry) (cid : String) (msg : OutMsg)
    (t : Transport)
    (hfind : reg.find? (fun p => p.1 == cid) = some (cid, t))
    (hfail : t ≠ Transport.ok) :
    (send_to_client reg cid msg).2.1 = false ∧
    (send_to_client reg cid msg).2.2 = [] ∧
    (t = Transport.closed → (send_to_client reg cid msg).1 = unregister_client reg cid) ∧
    (t = Transport.err → (send_to_client reg cid msg).1 = reg) := by
  unfold send_to_client
  rw [hfind]
  cases t with
  | ok => exact absurd rfl hfail
  | closed =>
    refine ⟨rfl, rfl, fun _ => rfl, fun h => ?_⟩
    cases h
  | err =>
    refine ⟨rfl, rfl, fun h => ?_, fun _ => rfl⟩
    cases h

/-- C5 witness: a registered client whose socket is closed. -/
theorem C5_witness :
    (send_to_client [("c1", Transport.closed)] "c1" (OutMsg.connection "hi")).2.1 = false ∧
    (send_to_client [("c1", Transport.closed)] "c1" (OutMsg.connection "hi")).2.2 = [] ∧
    (Transport.closed = Transport.closed →
      (send_to_client [("c1", Transport.closed)] "c1" (OutMsg.connection "hi")).1 =
        unregister_client [("c1", Transport.closed)] "c1") ∧
    (Transport.closed = Transport.err →
      (send_to_client [("c1", Transport.closed)] "c1" (OutMsg.connection "hi")).1 =
        [("c1", Transport.closed)]) :=
  C5_send_failure [("c1", Transport.closed)] "c1" (OutMsg.connection "hi")
    Transport.closed rfl (by decide)

/-- C6: `broadcast(message)` attempts a send to every currently
registered connection; the final registry keeps exactly the connections
whose send succeeded, the deliveries are exactly one copy of the message
to each succeeding connection in registry order, and a failing client is
merely collected into `disconnected_clients` — it never removes or skips
any other client in the pass. -/
theorem C6_broadcast_pass (reg : Registry) (msg : OutMsg)
    (hnodup : (reg.map Prod.fst).Nodup) :
    (broadcast reg msg).1 = reg.filter (fun p => p.2 = Transport.ok) ∧
    (broadcast reg msg).2 =
      (reg.filter (fun p => p.2 = Transport.ok)).map (fun p => (p.1, msg)) := by
  refine ⟨broadcast_registry reg msg hnodup, ?_⟩
  unfold broadcast
  by_cases he : reg.isEmpty = true
  · cases reg with
    | nil => simp
    | cons a l => simp [List.isEmpty] at he
  · simp only [he, if_false]
    exact (broadcastLoop_spec reg msg).1

/-- C6 witness: the spec scenario — `c1`'s socket is closed, `c2`'s is
live; one broadcast delivers to `c2` only and unregisters only `c1`. -/
theorem C6_witness :
    (broadcast [("c1", Transport.closed), ("c2", Transport.ok)]
        (OutMsg.progress_update "X" ⟨"X", "blender_import", 50, "m", 0⟩)).1 =
      ([("c1", Transport.closed), ("c2", Transport.ok)].filter
        (fun p => p.2 = Transport.ok)) ∧
    (broadcast [("c1", Transport.closed), ("c2", Transport.ok)]
        (OutMsg.progress_update "X" ⟨"X", "blender_import", 50, "m", 0⟩)).2 =
      (([("c1", Transport.closed), ("c2", Transport.ok)].filter
          (fun p => p.2 = Transport.ok)).map
        (fun p => (p.1, OutMsg.progress_update "X" ⟨"X", "blender_import", 50, "m", 0⟩))) :=
  C6_broadcast_pass [("c1", Transport.closed), ("c2", Transport.ok)]
    (OutMsg.progress_update "X" ⟨"X", "blender_import", 50, "m", 0⟩) (by decide)

/-- C7: an identified client that sends `subscribe_job` for a job whose
Job Store record exists immediately receives exactly one `job_status`
snapshot carrying that record, and — the server consuming events
sequentially — that snapshot precedes the output of every subsequent
event, in particular every later `progress_update` for the
subscription. -/
theorem C7_snapshot_before_stream (tr : Nat → Transport) (store : Store)
    (st : ServerState) (conn : Nat) (jid cid : String) (record : JobData)
    (es : List ServerEvent)
    (hconn : connIdOf st conn = some cid)
    (hcid : cid ≠ "") (hjid : jid ≠ "")
    (hrec : redisGet store (jobKey jid) = some record)
    (htr : st.clients.find? (fun p => p.1 == cid) = some (cid, Transport.ok)) :
    serverRun tr store st
        (ServerEvent.clientMsg conn (ClientMsg.subscribe_job (some jid)) :: es) =
      ((serverRun tr store st es).1,
        (cid, OutMsg.job_status jid record) :: (serverRun tr store st es).2) := by
  have hstep : serverStep tr store st
      (ServerEvent.clientMsg conn (ClientMsg.subscribe_job (some jid))) =
      (st, [(cid, OutMsg.job_status jid record)]) := by
    simp [serverStep, hconn, hjid, hcid, subscribe_to_job_progress, hrec,
      send_to_client, htr]
  simp [serverRun, hstep]

/-- C7 witness: one identified live client subscribing to an existing
record, followed by a progress event — the snapshot is delivered first. -/
theorem C7_witness :
    serverRun (fun _ => Transport.ok) [(jobKey "A", upload_job_data "A" "a.mp4" "/in/a.mp4" 0)]
        { connId := [(0, "c1")], clients := [("c1", Transport.ok)] }
        (ServerEvent.clientMsg 0 (ClientMsg.subscribe_job (some "A")) ::
          [ServerEvent.progressEvent "A" ⟨"A", "blender_import", 10, "m", 1⟩]) =
      ((serverRun (fun _ => Transport.ok)
          [(jobKey "A", upload_job_data "A" "a.mp4" "/in/a.mp4" 0)]
          { connId := [(0, "c1")], clients := [("c1", Transport.ok)] }
          [ServerEvent.progressEvent "A" ⟨"A", "blender_import", 10, "m", 1⟩]).1,
        ("c1", OutMsg.job_status "A" (upload_job_data "A" "a.mp4" "/in/a.mp4" 0)) ::
          (serverRun (fun _ => Transport.ok)
            [(jobKey "A", upload_job_data "A" "a.mp4" "/in/a.mp4" 0)]
            { connId := [(0, "c1")], clients := [("c1", Transport.ok)] }
            [ServerEvent.progressEvent "A" ⟨"A", "blender_import", 10, "m", 1⟩]).2) :=
  C7_snapshot_before_stream (fun _ => Transport.ok)
    [(jobKey "A", upload_job_data "A" "a.mp4" "/in/a.mp4" 0)]
    { connId := [(0, "c1")], clients := [("c1", Transport.ok)] } 0 "A" "c1"
    (upload_job_data "A" "a.mp4" "/in/a.mp4" 0)
    [ServerEvent.progressEvent "A" ⟨"A", "blender_import", 10, "m", 1⟩]
    rfl (by decide) (by decide) (by decide) (by decide)

/-- `process_blender_job` never touches the descriptor's per-stage retry
counter. -/
theorem process_blender_job_blender_retries (jd : JobData) (out : BlenderOutcome)
    (now : Nat) :
    (process_blender_job jd out now).1.blender_retries = jd.blender_retries := by
  cases out <;> rfl

/-- The concrete C1 scenario descriptor: job `A` enqueued with
`max_retries` 2 (worker budget `m = 2` likewise). -/
def jdA : JobData :=
  { upload_job_data "A" "A.mp4" "/app/input_videos/A.mp4" 0 with max_retries := 2 }

/-- Initial worker state of the scenarios: `A` queued, its initial record
stored, empty dead-letter list. -/
def stA : WorkerState :=
  { queue := [jdA], dead := [], store := [(jobKey "A", jdA)], clock := 0 }

/-- C1 counterexample: with `max_retries = 2`, after TWO consecutive
failed attempts the descriptor is NOT in the dead-letter list (which is
still empty) — it sits in the live queue with retry counter 2, because
the worker dead-letters only when a failure is observed with
`retries >= max_retries`, i.e. on the third failure. -/
theorem C1_counterexample :
    (main_worker_loop_run 2
        [BlenderOutcome.failure "e1", BlenderOutcome.failure "e2"] stA).1.dead = [] ∧
    ((main_worker_loop_run 2
        [BlenderOutcome.failure "e1", BlenderOutcome.failure "e2"] stA).1.queue.map
      (fun d => (d.job_id, d.blender_retries))) = [("A", some 2)] := by
  constructor <;> rfl

/-- C1 (amended): with `max_retries = 2`, after THREE consecutive failed
attempts (`max_retries + 1` failures) the descriptor of `A` appears in
the stage's dead-letter list with retry counter 2 and status
`failed_blender`, the live queue is empty, and the Job Store record for
`A` reads `failed_blender`; after only two failures it is still in the
live queue. -/
theorem C1_deadletter_after_three_failures :
    ((main_worker_loop_run 2
        [BlenderOutcome.failure "e1", BlenderOutcome.failure "e2",
         BlenderOutcome.failure "e3"] stA).1.dead.map
      (fun d => (d.job_id, d.blender_retries, d.status))) =
      [("A", some 2, "failed_blender")] ∧
    (main_worker_loop_run 2
        [BlenderOutcome.failure "e1", BlenderOutcome.failure "e2",
         BlenderOutcome.failure "e3"] stA).1.queue = [] ∧
    ((redisGet (main_worker_loop_run 2
        [BlenderOutcome.failure "e1", BlenderOutcome.failure "e2",
         BlenderOutcome.failure "e3"] stA).1.store (jobKey "A")).map
      JobData.status) = some "failed_blender" := by
  refine ⟨rfl, rfl, rfl⟩

/-- C2: on a failed attempt observed with retry counter `r`: if
`r < max_retries` the descriptor re-enters the same queue with its
counter incremented by exactly one (and is not dead-lettered); once `r`
is no longer below `max_retries` — the failure count having exceeded the
budget — the descriptor is appended exactly once to the dead-letter list
(`lpush` of one element), leaves the live queue, and (its id being
unique in the queue) is never re-enqueued onto the live queue by any
continuation of the run. -/
theorem C2_retry_increment_then_deadletter_once (m : Nat) (msg : String)
    (st : WorkerState) (jd : JobData) (rest : List JobData)
    (hpop : brpop st.queue = some (jd, rest)) :
    (jd.blender_retries.getD 0 < m →
      ∃ jd2 : JobData,
        (main_worker_loop_step m (BlenderOutcome.failure msg) st).1.queue =
          lpush jd2 rest ∧
        jd2.job_id = jd.job_id ∧
        jd2.blender_retries = some (jd.blender_retries.getD 0 + 1) ∧
        (main_worker_loop_step m (BlenderOutcome.failure msg) st).1.dead = st.dead) ∧
    (¬ jd.blender_retries.getD 0 < m →
      (∃ jdF : JobData,
        (main_worker_loop_step m (BlenderOutcome.failure msg) st).1.dead =
          lpush jdF st.dead ∧
        jdF.job_id = jd.job_id ∧
        jdF.blender_retries = jd.blender_retries) ∧
      (main_worker_loop_step m (BlenderOutcome.failure msg) st).1.queue = rest ∧
      (jd.job_id ∉ rest.map JobData.job_id →
        ∀ os : List BlenderOutcome,
          jd.job_id ∉
            ((main_worker_loop_run m os
                (main_worker_loop_step m (BlenderOutcome.failure msg) st).1).1.queue.map
              JobData.job_id))) := by
  constructor
  · intro hr
    rw [main_worker_loop_step_retry m msg st jd rest hpop hr]
    exact ⟨_, rfl, by simp [process_blender_job_job_id], rfl, rfl⟩
  · intro hr
    rw [main_worker_loop_step_deadletter m msg st jd rest hpop hr]
    refine ⟨⟨_, rfl, process_blender_job_job_id jd _ st.clock,
      process_blender_job_blender_retries jd _ st.clock⟩, rfl, ?_⟩
    intro hnot os
    exact main_worker_loop_run_queue_ids m os _ jd.job_id (by simpa using hnot)

/-- C2 witness: the concrete scenario state (fresh descriptor, budget 2),
discharging the pop hypothesis. -/
theorem C2_witness :
    (jdA.blender_retries.getD 0 < 2 →
      ∃ jd2 : JobData,
        (main_worker_loop_step 2 (BlenderOutcome.failure "boom") stA).1.queue =
          lpush jd2 [] ∧
        jd2.job_id = jdA.job_id ∧
        jd2.blender_retries = some (jdA.blender_retries.getD 0 + 1) ∧
        (main_worker_loop_step 2 (BlenderOutcome.failure "boom") stA).1.dead = stA.dead) ∧
    (¬ jdA.blender_retries.getD 0 < 2 →
      (∃ jdF : JobData,
        (main_worker_loop_step 2 (BlenderOutcome.failure "boom") stA).1.dead =
          lpush jdF stA.dead ∧
        jdF.job_id = jdA.job_id ∧
        jdF.blender_retries = jdA.blender_retries) ∧
      (main_worker_loop_step 2 (BlenderOutcome.failure "boom") stA).1.queue = [] ∧
      (jdA.job_id ∉ ([] : List JobData).map JobData.job_id →
        ∀ os : List BlenderOutcome,
          jdA.job_id ∉
            ((main_worker_loop_run 2 os
                (main_worker_loop_step 2 (BlenderOutcome.failure "boom") stA).1).1.queue.map
              JobData.job_id))) :=
  C2_retry_increment_then_deadletter_once 2 "boom" stA jdA [] rfl

/-- C3 counterexample: `failed[stage]` is not terminal.  With the default
budget `m = 3`, two consecutive failures produce the store-write status
trace `processing, failed, processing, failed` on job `A`'s record: the
`failed_blender` written by the first attempt is later overwritten by
`processing_blender` when the retried attempt starts. -/
theorem C3_counterexample :
    ((main_worker_loop_run 3
        [BlenderOutcome.failure "e1", BlenderOutcome.failure "e2"] stA).2.map
      (fun w => (w.1, w.2.status))) =
      [(jobKey "A", "processing_blender"), (jobKey "A", "failed_blender"),
       (jobKey "A", "processing_blender"), (jobKey "A", "failed_blender")] := by
  rfl

/-- C3 (amended): `completed` is terminal, and `failed[stage]` is
terminal once written by an attempt that exhausts the retry budget: if
the popped job's id occurs nowhere else in the queue and the attempt
either succeeds or fails with `retries >= max_retries`, then the record
holds `completed` (resp. `failed_blender`) and no continuation of the
run ever changes that record again.  An intermediate `failed[stage]`
written by an attempt that will be retried is not terminal (see the
counterexample). -/
theorem C3_terminal_after_completion_or_deadletter (m : Nat) (out : BlenderOutcome)
    (st : WorkerState) (jd : JobData) (rest : List JobData)
    (hpop : brpop st.queue = some (jd, rest))
    (huniq : jd.job_id ∉ rest.map JobData.job_id)
    (hterm : (∃ size, out = BlenderOutcome.success size) ∨
             ¬ jd.blender_retries.getD 0 < m) :
    ((redisGet (main_worker_loop_step m out st).1.store (jobKey jd.job_id)).map
        JobData.status =
      some (match out with
            | BlenderOutcome.success _ => "completed"
            | BlenderOutcome.failure _ => "failed_blender")) ∧
    ∀ os : List BlenderOutcome,
      redisGet (main_worker_loop_run m os (main_worker_loop_step m out st).1).1.store
          (jobKey jd.job_id) =
        redisGet (main_worker_loop_step m out st).1.store (jobKey jd.job_id) := by
  cases out with
  | success size =>
    rw [main_worker_loop_step_success m size st jd rest hpop]
    constructor
    · simp [process_blender_job, applyWrites, redisSet, redisGet]
    · intro os
      exact (main_worker_loop_run_no_writes m os _ jd.job_id (by simpa using huniq)).2
  | failure msg =>
    have hr : ¬ jd.blender_retries.getD 0 < m := by
      cases hterm with
      | inl hsz =>
        obtain ⟨size, hsz⟩ := hsz
        cases hsz
      | inr h => exact h
    rw [main_worker_loop_step_deadletter m msg st jd rest hpop hr]
    constructor
    · simp [process_blender_job, applyWrites, redisSet, redisGet]
    · intro os
      exact (main_worker_loop_run_no_writes m os _ jd.job_id (by simpa using huniq)).2

/-- C3 witness: budget 0, so the single failure dead-letters `A` and its
record stays `failed_blender` forever after. -/
theorem C3_witness :
    ((redisGet (main_worker_loop_step 0 (BlenderOutcome.failure "boom") stA).1.store
        (jobKey jdA.job_id)).map JobData.status =
      some (match BlenderOutcome.failure "boom" with
            | BlenderOutcome.success _ => "completed"
            | BlenderOutcome.failure _ => "failed_blender")) ∧
    ∀ os : List BlenderOutcome,
      redisGet (main_worker_loop_run 0 os
          (main_worker_loop_step 0 (BlenderOutcome.failure "boom") stA).1).1.store
          (jobKey jdA.job_id) =
        redisGet (main_worker_loop_step 0 (BlenderOutcome.failure "boom") stA).1.store
          (jobKey jdA.job_id) :=
  C3_terminal_after_completion_or_deadletter 0 (BlenderOutcome.failure "boom") stA jdA []
    rfl (by decide) (Or.inr (by decide))

/-- C4 counterexample: after a failed attempt with retries below the
budget, the descriptor re-enqueued on the live queue carries status
`retry_blender`, but at that moment the Job Store record for `A` reads
`failed_blender` — the worker never writes `retry_blender` to the store
(the status trace of the step contains no such write), contradicting the
claim that the record's status is `retry[stage]` at re-enqueue. -/
theorem C4_counterexample :
    ((main_worker_loop_step 2 (BlenderOutcome.failure "e1") stA).1.queue.map
      JobData.status) = ["retry_blender"] ∧
    ((redisGet (main_worker_loop_step 2 (BlenderOutcome.failure "e1") stA).1.store
        (jobKey "A")).map JobData.status) = some "failed_blender" ∧
    ¬ ((redisGet (main_worker_loop_step 2 (BlenderOutcome.failure "e1") stA).1.store
        (jobKey "A")).map JobData.status = some "retry_blender") ∧
    ((main_worker_loop_step 2 (BlenderOutcome.failure "e1") stA).2.map
      (fun w => w.2.status)) = ["processing_blender", "failed_blender"] := by
  refine ⟨rfl, rfl, by decide, rfl⟩

/-- C4 (amended): on a failure with `r < max_retries` the worker
increments `r` on the DESCRIPTOR, marks the descriptor `retry[stage]`,
sleeps the fixed backoff, and re-enqueues it onto the same stage queue;
the Job Store record is not updated to `retry[stage]` — at the moment of
re-enqueue it still reads the `failed[stage]` written by the failed
attempt, and no store write of the step carries `retry_blender`. -/
theorem C4_retry_marks_descriptor_not_store (m : Nat) (msg : String)
    (st : WorkerState) (jd : JobData) (rest : List JobData)
    (hpop : brpop st.queue = some (jd, rest))
    (hr : jd.blender_retries.getD 0 < m) :
    ∃ jd2 : JobData,
      (main_worker_loop_step m (BlenderOutcome.failure msg) st).1.queue =
        lpush jd2 rest ∧
      jd2.job_id = jd.job_id ∧
      jd2.blender_retries = some (jd.blender_retries.getD 0 + 1) ∧
      jd2.status = "retry_blender" ∧
      (redisGet (main_worker_loop_step m (BlenderOutcome.failure msg) st).1.store
          (jobKey jd.job_id)).map JobData.status = some "failed_blender" ∧
      ∀ w ∈ (main_worker_loop_step m (BlenderOutcome.failure msg) st).2,
        w.2.status ≠ "retry_blender" := by
  rw [main_worker_loop_step_retry m msg st jd rest hpop hr]
  refine ⟨_, rfl, by simp [process_blender_job_job_id], rfl, rfl, ?_, ?_⟩
  · simp [process_blender_job, applyWrites, redisSet, redisGet]
  · intro w hw
    simp only [process_blender_job, List.mem_cons, List.not_mem_nil, or_false] at hw
    rcases hw with h | h
    · rw [h]
      show ("processing_blender" : String) ≠ "retry_blender"
      decide
    · rw [h]
      show ("failed_blender" : String) ≠ "retry_blender"
      decide

/-- C4 witness: the concrete scenario state with budget 2. -/
theorem C4_witness :
    ∃ jd2 : JobData,
      (main_worker_loop_step 2 (BlenderOutcome.failure "boom") stA).1.queue =
        lpush jd2 [] ∧
      jd2.job_id = jdA.job_id ∧
      jd2.blender_retries = some (jdA.blender_retries.getD 0 + 1) ∧
      jd2.status = "retry_blender" ∧
      (redisGet (main_worker_loop_step 2 (BlenderOutcome.failure "boom") stA).1.store
          (jobKey jdA.job_id)).map JobData.status = some "failed_blender" ∧
      ∀ w ∈ (main_worker_loop_step 2 (BlenderOutcome.failure "boom") stA).2,
        w.2.status ≠ "retry_blender" :=
  C4_retry_marks_descriptor_not_store 2 "boom" stA jdA [] rfl (by decide)
